import Mathlib

/-!
# Verification of the seedbox-lite Slack handler core

This file is a shallow embedding, in Lean 4, of the stateful conversation and
notification core of `server/handlers/slackHandler.js` of the seedbox-lite
repository, together with proofs of the testable properties stated in the
repository's specification.

Modelling conventions (applied uniformly, each documented again at its use
site):

* JavaScript strings are modelled as `List Char` (`Str` below);
  `String.prototype.toLowerCase`, `trim`, `startsWith`, `includes`,
  `split(/\s+/)` and so on are translated as explicit functions on `List
  Char`.  The JavaScript whitespace class `\s` is modelled over the ASCII
  whitespace characters (space, tab, line feed, carriage return, form feed,
  vertical tab); the Unicode members of `\s` do not occur in any of the
  literal commands the handler recognises.
* JavaScript `Map` objects are modelled as association lists in insertion
  order: `Map.prototype.set` overwrites in place when the key exists and
  appends otherwise, `Map.prototype.get` returns the first (and, for maps
  built with `set`, only) binding; iteration with `for ... of m.entries()`
  is structural recursion over the list.
* External collaborators (`this.torrentHandler`, `this.torrentMoveHandler`,
  `TorrentSearchApi.getMagnet`, the Slack transport) are out of scope per
  the specification and enter the model as explicit parameters; a thrown
  JavaScript exception is an `Except.error`.
* The `setTimeout`-based eviction of the shared `this.searchResults` cache
  is modelled, as the specification's design notes prescribe, by storing an
  absolute expiry deadline with each entry and filtering by the current
  time on every read (`viewAt`): an entry created at `T` with a timer of
  `ttl` milliseconds is visible exactly at the instants `t < T + ttl`,
  which is the behaviour of a timer that fires on schedule.
* Outbound chat messages are display-only; replies are modelled by small
  outcome inductives recording which reply was produced.
-/

/-- JavaScript strings, modelled as lists of characters. -/
abbrev Str := List Char

/-- ASCII whitespace, our model of the JavaScript regex class `\s` and of the
characters removed by `String.prototype.trim`. -/
def isWS (c : Char) : Bool :=
  c = ' ' || c = '\t' || c = '\n' || c = '\r' || c = '\x0c' || c = '\x0b'

/-- JavaScript line terminators, i.e. the characters that the regex atom `.`
(without the `s` flag) does not match. -/
def isLineTerm (c : Char) : Bool :=
  c = '\n' || c = '\r' || c.toNat = 0x2028 || c.toNat = 0x2029

/-- `String.prototype.trim`. -/
def jsTrim (s : Str) : Str :=
  ((s.dropWhile isWS).reverse.dropWhile isWS).reverse

/-- `String.prototype.toLowerCase` (character-wise, as `Char.toLower`). -/
def jsToLower (s : Str) : Str := s.map Char.toLower

/-- `big.startsWith(small)`. -/
def jsStartsWith (s pre : Str) : Bool := pre.isPrefixOf s

/-- Case-insensitive prefix test, i.e. `s.toLowerCase().startsWith(pre.toLowerCase())`;
also used for the `i` flag of the regexes below. -/
def ciStartsWith (s pre : Str) : Bool := (jsToLower pre).isPrefixOf (jsToLower s)

/-- `a || b` on two possibly-`undefined` JavaScript strings, returning a
string: the first operand wins when it is truthy (defined and non-empty),
otherwise the given default is used. -/
def jsOrStrD (o : Option Str) (d : Str) : Str :=
  match o with
  | none => d
  | some s => if s.isEmpty then d else s

/-- Truthiness of a possibly-`undefined` JavaScript string. -/
def truthyOptStr : Option Str → Bool
  | none => false
  | some s => !s.isEmpty

/-- Worker for `jsSplitWS`: `word = some w` means we are inside a token whose
characters read so far are `w` (reversed), `word = none` means we are inside a
separator run (a maximal whitespace run). -/
def splitWSGo : Str → Option Str → List Str
  | [], none => [[]]
  | [], some w => [w.reverse]
  | c :: cs, none =>
      if isWS c then splitWSGo cs none else splitWSGo cs (some [c])
  | c :: cs, some w =>
      if isWS c then w.reverse :: splitWSGo cs none else splitWSGo cs (some (c :: w))

/-- `s.split(/\s+/)`: splits on maximal whitespace runs; a leading (resp.
trailing) separator contributes a leading (resp. trailing) empty token, and
the split of the empty string is `[""]`, as in JavaScript. -/
def jsSplitWS (s : Str) : List Str := splitWSGo s (some [])

/-- `Map.prototype.get` on an insertion-ordered association list. -/
def mapGet {α : Type} (m : List (Str × α)) (k : Str) : Option α :=
  match m with
  | [] => none
  | e :: rest => if e.1 = k then some e.2 else mapGet rest k

/-- `Map.prototype.set` on an insertion-ordered association list: overwrite in
place when the key is present, append otherwise. -/
def mapSet {α : Type} (m : List (Str × α)) (k : Str) (v : α) : List (Str × α) :=
  match m with
  | [] => [(k, v)]
  | e :: rest => if e.1 = k then (k, v) :: rest else e :: mapSet rest k v

/-! ## Data model

The per-job records kept by the handler (`slackHandler.js` lines 150-168):
`this.torrentMetadata` maps an info-hash to a metadata record, and
`this.trackedTorrents` maps an info-hash to `{progress, notified, metadata}`.
In the source both maps reference one shared metadata object per job; the
model keeps a copy in `Tracked` and re-establishes the sharing explicitly
wherever the source mutates the shared object (see `setTrackedMeta`). -/

/-- The metadata record built by the `/torrent` slash command. -/
structure TorrentMeta where
  infoHash : Str
  channel : Str
  threadTs : Str
  messageTs : Str
  type : Str
  destination : Str
  name : Str
  addedBy : Str
  addedByName : Str
  addedAt : Str
  deriving DecidableEq

/-- An entry of `this.trackedTorrents`. -/
structure Tracked where
  progress : Int
  notified : Bool
  metadata : TorrentMeta
  deriving DecidableEq

/-- A search result as returned by the search provider (`TorrentSearchApi`);
only the fields the handler reads. -/
structure SearchResult where
  title : Str
  size : Option Str
  seeds : Option Nat
  peers : Option Nat
  provider : Option Str
  deriving DecidableEq

/-- A value stored in the shared `this.searchResults` cache.  The source
stores plain objects of two shapes — search sessions `{results, query,
channel, userId}` and magnet sessions `{magnetLink, torrentTitle, channel,
userId}` — distinguished only by which fields are present; the model gives
the union of the fields, with `none` for an absent (`undefined`) field. -/
structure SessionData where
  results : Option (List SearchResult)
  query : Option Str
  magnetLink : Option Str
  torrentTitle : Option Str
  channel : Str
  userId : Str
  deriving DecidableEq

/-- A cache slot: the stored session value together with the absolute time at
which the `setTimeout` scheduled at its creation fires and deletes it. -/
structure CacheEntry where
  data : SessionData
  deadline : Nat
  deriving DecidableEq

/-- The mutable state of the `SlackHandler` instance that the claims are
about: the enabled flag, the two job maps, and the shared session cache. -/
structure SlackState where
  isEnabled : Bool
  trackedTorrents : List (Str × Tracked)
  torrentMetadata : List (Str × TorrentMeta)
  searchResults : List (Str × CacheEntry)
  deriving DecidableEq

/-- An inbound Slack message event, restricted to the fields the listeners
read. -/
structure Message where
  text : Str
  ts : Str
  threadTs : Option Str
  channel : Str
  botId : Option Str
  user : Str
  deriving DecidableEq

/-- The value returned by the external add collaborator
(`this.torrentHandler`); only the fields the handler stores. -/
structure AddResult where
  infoHash : Str
  name : Option Str
  progress : Option Int
  deriving DecidableEq

/-! ## Session cache timing -/

/-- 10 minutes in milliseconds: lifetime of a search session
(`setTimeout(..., 10 * 60 * 1000)`, line 753). -/
def searchSessionTTLms : Nat := 10 * 60 * 1000

/-- 5 minutes in milliseconds: lifetime of a magnet session
(`setTimeout(..., 5 * 60 * 1000)`, line 852). -/
def magnetSessionTTLms : Nat := 5 * 60 * 1000

/-- The cache as visible at time `t`: entries whose deletion timer has not
yet fired.  This models the `setTimeout(() => this.searchResults.delete(k),
ttl)` scheduled at entry creation, assuming the timer fires on schedule. -/
def viewAt (c : List (Str × CacheEntry)) (t : Nat) : List (Str × SessionData) :=
  (c.filter (fun e => t < e.2.deadline)).map (fun e => (e.1, e.2.data))

/-- `this.searchResults.get(k)` at time `t`. -/
def getSessionAt (c : List (Str × CacheEntry)) (k : Str) (t : Nat) : Option SessionData :=
  mapGet (viewAt c t) k

/-! ## Notification engine (`updateTorrentProgress`, lines 1028-1044) -/

/-- The per-job progress/notification step: record the new progress, and fire
the completion notification exactly when the new value is at least 100, the
previously recorded value was below 100, and `notified` is still false — in
which case `notified` is set before the call returns.  The returned boolean
is `true` iff `sendCompletionNotification` was invoked. -/
def stepJob (tracked : Tracked) (progress : Int) : Tracked × Bool :=
  let oldProgress := tracked.progress
  let fires := decide (100 ≤ progress) && decide (oldProgress < 100) && !tracked.notified
  ({ tracked with progress := progress, notified := tracked.notified || fires }, fires)

/-- `updateTorrentProgress(infoHash, progress)`: a no-op when the handler is
disabled or the id is not tracked; otherwise applies `stepJob` to the tracked
entry and writes it back.  The boolean records whether the completion
notification was sent during this call. -/
def updateTorrentProgress (s : SlackState) (infoHash : Str) (progress : Int) :
    SlackState × Bool :=
  if !s.isEnabled then (s, false)
  else
    match mapGet s.trackedTorrents infoHash with
    | none => (s, false)
    | some tracked =>
        let r := stepJob tracked progress
        ({ s with trackedTorrents := mapSet s.trackedTorrents infoHash r.1 }, r.2)

/-- Feed a sequence of progress values for one id through
`updateTorrentProgress`, counting how many calls fired the notification. -/
def runUpdates (s : SlackState) (id : Str) : List Int → SlackState × Nat
  | [] => (s, 0)
  | v :: vs =>
      let r := updateTorrentProgress s id v
      let rest := runUpdates r.1 id vs
      (rest.1, (if r.2 then 1 else 0) + rest.2)

/-- Pure projection of `runUpdates` onto a single tracked entry. -/
def runJob (t : Tracked) : List Int → Tracked × Nat
  | [] => (t, 0)
  | v :: vs =>
      let r := stepJob t v
      let rest := runJob r.1 vs
      (rest.1, (if r.2 then 1 else 0) + rest.2)

/-- The progress sequence `vals`, started from a recorded value `p`, contains
a value `≥ 100` whose immediately preceding recorded value is `< 100`. -/
def hasTransition (p : Int) : List Int → Bool
  | [] => false
  | v :: vs => (decide (100 ≤ v) && decide (p < 100)) || hasTransition v vs


/-! ## Periodic progress monitor (`monitorProgress`, lines 1157-1164) -/

/-- `Math.round`: round to the nearest integer, ties towards positive
infinity.  The fractional progress reported by the download engine is
modelled as a rational number. -/
def jsRound (q : ℚ) : Int := ⌊q + 1 / 2⌋

/-- Feed a list of already-converted `(infoHash, integer progress)` pairs
through `updateTorrentProgress`, in list order, counting notifications. -/
def runPairs : SlackState → List (Str × Int) → SlackState × Nat
  | s, [] => (s, 0)
  | s, p :: ps =>
      let r := updateTorrentProgress s p.1 p.2
      let rest := runPairs r.1 ps
      (rest.1, (if r.2 then 1 else 0) + rest.2)

/-- The loop body of `monitorProgress`: for each torrent, compute
`Math.round((torrent.progress || 0) * 100)` and feed it through
`updateTorrentProgress`.  An absent (`undefined`) fractional progress is
falsy and is replaced by `0` by the `||`. -/
def monitorGo : SlackState → List (Str × Option ℚ) → SlackState × Nat
  | s, [] => (s, 0)
  | s, t :: ts =>
      let progress := jsRound (t.2.getD 0 * 100)
      let r := updateTorrentProgress s t.1 progress
      let rest := monitorGo r.1 ts
      (rest.1, (if r.2 then 1 else 0) + rest.2)

/-- `monitorProgress(torrents)`: the periodic driver entry point, called with
the engine's current `{infoHash, progress}` pairs (fractional progress). -/
def monitorProgress (s : SlackState) (torrents : List (Str × Option ℚ)) :
    SlackState × Nat :=
  if !s.isEnabled then (s, 0) else monitorGo s torrents

/-! ## Identifier resolver (the partial-hash loops, lines 356-363 and 445-451) -/

/-- The loop condition `infoHash.toLowerCase().startsWith(hash.toLowerCase())`. -/
def hashMatches (infoHash hash : Str) : Bool :=
  jsStartsWith (jsToLower infoHash) (jsToLower hash)

/-- The partial-hash resolution loop shared by `/torrent-location` and
`/torrent-move`: scan `this.torrentMetadata.entries()` in insertion order and
return the first `infoHash` whose lower-cased form starts with the
lower-cased user-supplied prefix, breaking at the first match. -/
def resolvePrefix : List (Str × TorrentMeta) → Str → Option Str
  | [], _ => none
  | (infoHash, _) :: rest, hash =>
      if hashMatches infoHash hash then some infoHash else resolvePrefix rest hash

/-! ## `/torrent-move` (lines 428-569) -/

/-- The `status` strings of the external mover's result that the reply
builder distinguishes. -/
inductive MoveStatus where
  | complete
  | partialMoved
  | scheduled
  deriving DecidableEq

/-- The value returned by `this.torrentMoveHandler`; `status = none` models a
result object whose `status` is absent or not one of the three recognised
strings. -/
structure MoveResult where
  status : Option MoveStatus
  movedFiles : Option Nat
  totalFiles : Option Nat
  deriving DecidableEq

/-- The reply produced by the `/torrent-move` command, by content kind. -/
inductive MoveReply where
  | usage
  | notFound
  | filesMoved
  | partiallyMoved
  | moveScheduled
  | locationUpdated
  | metadataOnly
  deriving DecidableEq

/-- The reply-content selection of `/torrent-move` (lines 479-555): the
header is chosen by `moveResult?.status`, and when `moveResult` is null
(no handler configured, handler threw, or handler returned `undefined`) the
"location updated in metadata" context is appended. -/
def moveReplyOf : Option MoveResult → MoveReply
  | none => .metadataOnly
  | some r =>
      match r.status with
      | some .complete => .filesMoved
      | some .partialMoved => .partiallyMoved
      | some .scheduled => .moveScheduled
      | none => .locationUpdated

/-- In the source, `this.trackedTorrents.get(h).metadata` and
`this.torrentMetadata.get(h)` are one shared object, so mutating
`metadata.destination` in `/torrent-move` is visible through both maps.  The
model makes that aliasing explicit: writing the metadata record re-writes the
copy held by the tracked entry, when one exists. -/
def setTrackedMeta (m : List (Str × Tracked)) (k : Str) (md : TorrentMeta) :
    List (Str × Tracked) :=
  match mapGet m k with
  | none => m
  | some t => mapSet m k { t with metadata := md }

/-- The `/torrent-move` command handler.  `mover = none` models an
unconfigured `this.torrentMoveHandler`; `some (Except.error ())` a handler
call that threw (caught and logged, line 473-475); `some (Except.ok r)` a
call returning `r` (with `r = none` for `undefined`). -/
def torrentMoveCommand (s : SlackState) (text : Str)
    (mover : Option (Except Unit (Option MoveResult))) : SlackState × MoveReply :=
  let parts := jsSplitWS (jsTrim text)
  let hash := parts.headD []
  let newDestination := List.intercalate [' '] (parts.drop 1)
  if hash.isEmpty || newDestination.isEmpty then (s, .usage)
  else
    match resolvePrefix s.torrentMetadata hash with
    | none => (s, .notFound)
    | some matchedHash =>
        match mapGet s.torrentMetadata matchedHash with
        | none => (s, .notFound)  -- unreachable: `resolvePrefix` only returns keys present in the map
        | some metadata =>
            let md2 := { metadata with destination := newDestination }
            let s2 := { s with
              torrentMetadata := mapSet s.torrentMetadata matchedHash md2,
              trackedTorrents := setTrackedMeta s.trackedTorrents matchedHash md2 }
            let moveResult : Option MoveResult :=
              match mover with
              | none => none
              | some (Except.error _) => none
              | some (Except.ok r) => r
            (s2, moveReplyOf moveResult)

/-! ## `/torrent-search` (lines 665-765) -/

/-- The session object stored for a results listing (line 745-750): search
sessions have no `magnetLink` field. -/
def searchSessionData (results : List SearchResult) (query channelId userId : Str) :
    SessionData :=
  { results := some results, query := some query, magnetLink := none,
    torrentTitle := none, channel := channelId, userId := userId }

/-- The reply produced by `/torrent-search`, by content kind. -/
inductive SearchReply where
  | usage
  | noResults (query : Str)
  | posted (count : Nat)
  deriving DecidableEq

/-- The `/torrent-search` command handler.  The external search provider's
response (`TorrentSearchApi.search(query, 'All', 10)`, bounded to 10
results) and the transport's timestamp for the results message
(`response.ts`) are parameters; `now` is the creation instant used for the
10-minute eviction timer. -/
def searchCommand (s : SlackState) (text channelId userId : Str)
    (results : List SearchResult) (responseTs : Str) (now : Nat) :
    SlackState × SearchReply :=
  let query := jsTrim text
  if query.isEmpty then (s, .usage)
  else if results.isEmpty then (s, .noResults query)
  else
    ({ s with searchResults := (mapSet s.searchResults responseTs
        { data := searchSessionData results query channelId userId,
          deadline := now + searchSessionTTLms }) }, .posted results.length)

/-! ## Numeric reply listener (`/^[1-9][0-9]?$/`, lines 772-859) -/

def isDigitChar (c : Char) : Bool := '0' ≤ c && c ≤ '9'

def digitVal (c : Char) : Nat := c.toNat - '0'.toNat

/-- `parseInt` restricted to the shapes that reach it here: the value of the
longest leading digit run.  The listener's dispatch pattern `^[1-9][0-9]?$`
guarantees the argument is one or two digits, on which this agrees with
JavaScript `parseInt`. -/
def parseDigits (t : Str) : Nat :=
  (t.takeWhile isDigitChar).foldl (fun n c => 10 * n + digitVal c) 0

/-- The dispatch pattern `^[1-9][0-9]?$` of the numeric-selection listener. -/
def matchesNumericSelection (t : Str) : Bool :=
  match t with
  | [c] => '1' ≤ c && c ≤ '9'
  | [c, d] => ('1' ≤ c && c ≤ '9') && isDigitChar d
  | _ => false

/-- The reply produced by the numeric-selection listener, by content kind. -/
inductive NumericReply where
  | ignored
  | errorCaught
  | invalidSelection (len : Nat)
  | magnetFailed
  | magnetPosted (title : Str)
  deriving DecidableEq

/-- The tail of the numeric-selection listener after a result has been
selected: resolve the magnet link via `TorrentSearchApi.getMagnet` (outcome
passed in; `Except.error` models a thrown exception caught by the listener's
`catch`, `Except.ok none` / an empty string a falsy link), and on success
store a magnet session keyed by the id `message.ts` of the user's numeric
reply, with a 5-minute eviction timer. -/
def afterSelection (s : SlackState) (msg : Message) (selectedTorrent : SearchResult)
    (magnetOutcome : Except Unit (Option Str)) (now : Nat) : SlackState × NumericReply :=
  match magnetOutcome with
  | Except.error _ => (s, .errorCaught)
  | Except.ok none => (s, .magnetFailed)
  | Except.ok (some magnetLink) =>
      if magnetLink.isEmpty then (s, .magnetFailed)
      else
        let data : SessionData :=
          { results := none, query := none, magnetLink := some magnetLink,
            torrentTitle := some selectedTorrent.title,
            channel := msg.channel, userId := msg.user }
        ({ s with searchResults := (mapSet s.searchResults msg.ts
            { data := data, deadline := now + magnetSessionTTLms }) },
          .magnetPosted selectedTorrent.title)

/-- The numeric-selection listener (lines 772-859): guards (bot message, not
in a thread, no live search session for `message.thread_ts`), 1-indexed
bounds check of `parseInt(message.text.trim()) - 1` against the stored result
list, then `afterSelection`.  A session without a `results` field (a magnet
session keyed by the thread id) makes `searchData.results.length` throw in
JavaScript; the thrown `TypeError` is caught by the listener's `catch`
(`errorCaught`). -/
def numericReplyHandler (s : SlackState) (msg : Message)
    (getMagnet : SearchResult → Except Unit (Option Str)) (now : Nat) :
    SlackState × NumericReply :=
  if !matchesNumericSelection msg.text then (s, .ignored)
  else if msg.botId.isSome then (s, .ignored)
  else
    match msg.threadTs with
    | none => (s, .ignored)
    | some threadTs =>
        match getSessionAt s.searchResults threadTs now with
        | none => (s, .ignored)
        | some searchData =>
            match searchData.results with
            | none => (s, .errorCaught)
            | some results =>
                let selectedIndex : Int := (parseDigits (jsTrim msg.text) : Int) - 1
                if selectedIndex < 0 ∨ (results.length : Int) ≤ selectedIndex then
                  (s, .invalidSelection results.length)
                else
                  match results.get? selectedIndex.toNat with
                  | none => (s, .errorCaught)
                  | some selectedTorrent =>
                      afterSelection s msg selectedTorrent (getMagnet selectedTorrent) now

/-! ## Free-text "add" listener (`/^add(\s+(movie|tv|general))?(\s+.*)?$/i`,
lines 862-910)

The two regexes (the dispatch pattern above and the capture pattern
`/^add(\s+(movie|tv|general))?(\s+(.+))?$/i` used on line 883) are modelled
by explicit backtracking-faithful functions.  The relevant regex facts: the
alternation tries `movie`, `tv`, `general` in order; `\s+` is greedy but
each alternative starts with a non-whitespace letter, so the first `\s+`
always takes the maximal whitespace run; `.` does not match line
terminators; and `$` matches only at the end of the string. -/

/-- The type tokens of the alternation `(movie|tv|general)`, in order. -/
def addTypeTokens : List Str := [("movie".data), ("tv".data), ("general".data)]

/-- Whether `(\s+(movie|tv|general))` can match a prefix of `afterWs` (the
input with its maximal leading whitespace run already removed) such that the
rest is matched by `(\s+.*)?$`: the type token, case-insensitively, followed
by end of input or by whitespace whose post-run remainder is free of line
terminators. -/
def addTypeTailOk (afterWs : Str) : Bool :=
  addTypeTokens.any (fun ty =>
    ciStartsWith afterWs ty &&
      (match afterWs.drop ty.length with
       | [] => true
       | c :: _ => isWS c && !((afterWs.drop ty.length).dropWhile isWS).any isLineTerm))

/-- Whether `(\s+(movie|tv|general))?(\s+.*)?$` matches the remainder `rem`
(the input after the literal `add`): either `rem` is empty, or it starts
with whitespace and — with or without the type group — every line terminator
falls inside a `\s+` run. -/
def addTailOk (rem : Str) : Bool :=
  match rem with
  | [] => true
  | c :: _ =>
      isWS c &&
        ((!(rem.dropWhile isWS).any isLineTerm) || addTypeTailOk (rem.dropWhile isWS))

/-- The dispatch pattern `/^add(\s+(movie|tv|general))?(\s+.*)?$/i` that
gates the "add" listener. -/
def matchAddDispatch (t : Str) : Bool :=
  ciStartsWith t ("add".data) && addTailOk (t.drop 3)

/-- Match `(\s+(.+))?$` against `rem` with backtracking: `none` means the
whole regex fails on `rem`; `some none` means the group is absent (`rem`
empty); `some (some d)` means the group matched with capture `d`.  The
greedy `\s+` first takes the maximal whitespace run; when the remainder
would leave `(.+)` empty, it gives back exactly one (necessarily
whitespace) character, which `(.+)` can take only if it is not a line
terminator. -/
def extractDestMatch (rem : Str) : Option (Option Str) :=
  match rem with
  | [] => some none
  | c :: _ =>
      if !isWS c then none
      else
        let r := rem.dropWhile isWS
        if r.isEmpty then
          if 2 ≤ rem.length then
            match rem.getLast? with
            | some last => if isLineTerm last then none else some (some [last])
            | none => none
          else none
        else if r.any isLineTerm then none
        else some (some r)

/-- Try to match `rem` (the input after `add`) against
`\s+(movie|tv|general)(\s+(.+))?$`, returning the two captures (the type
text in its original case, and the destination) on success. -/
def tryExtractWithType (rem : Str) : Option (Option Str × Option Str) :=
  match rem with
  | [] => none
  | c :: _ =>
      if !isWS c then none
      else
        let afterWs := rem.dropWhile isWS
        addTypeTokens.findSome? (fun ty =>
          if ciStartsWith afterWs ty then
            match extractDestMatch (afterWs.drop ty.length) with
            | some d => some (some (afterWs.take ty.length), d)
            | none => none
          else none)

/-- `message.text.match(/^add(\s+(movie|tv|general))?(\s+(.+))?$/i)`,
returning the captures `(match[2], match[4])`, or `none` when the whole
match fails (in which case the source's `match[2]` throws a `TypeError`,
caught by the listener's `catch`). -/
def matchAddExtract (t : Str) : Option (Option Str × Option Str) :=
  if !ciStartsWith t ("add".data) then none
  else
    match tryExtractWithType (t.drop 3) with
    | some r => some r
    | none =>
        match extractDestMatch (t.drop 3) with
        | some d => some (none, d)
        | none => none

/-- The magnet-session scan of the "add" listener (lines 874-879): iterate
over all live cache entries in insertion order and take the first whose
`magnetLink` field is truthy and whose `channel` equals the message's
channel, breaking at the first match. -/
def scanMagnet : List (Str × SessionData) → Str → Option SessionData
  | [], _ => none
  | (_, data) :: rest, channel =>
      if truthyOptStr data.magnetLink && decide (data.channel = channel) then some data
      else scanMagnet rest channel

/-- The reply produced by the "add" listener, by content kind. -/
inductive AddReply where
  | ignored
  | errorCaught
  | notConfigured
  | added (name : Str)
  deriving DecidableEq

/-- The delegation tail of the "add" listener (lines 884-905): lower-case
the type capture (`match[2]?.toLowerCase()`), trim the destination capture
(`match[4]?.trim()`), and call the external add collaborator
(`this.torrentHandler(magnetData.magnetLink, type, destination)`); a thrown
collaborator error is caught and only logged.  The listener replies but
performs no state change in any outcome. -/
def addDelegate (magnetData : SessionData) (groups : Option Str × Option Str)
    (torrentHandler : Option (Str → Option Str → Option Str → Except Unit AddResult)) :
    AddReply :=
  let type := groups.1.map jsToLower
  let destination := groups.2.map jsTrim
  match torrentHandler with
  | none => .notConfigured
  | some h =>
      match h (magnetData.magnetLink.getD []) type destination with
      | Except.error _ => .errorCaught
      | Except.ok result => .added (jsOrStrD result.name (magnetData.torrentTitle.getD []))

/-- The free-text "add" listener (lines 862-910).  Note that, unlike the
`/torrent` slash command, this handler performs no registration: it never
writes `this.torrentMetadata`, `this.trackedTorrents`, or
`this.searchResults` — its only effects are the collaborator call and the
replies. -/
def addReplyHandler (s : SlackState) (msg : Message)
    (torrentHandler : Option (Str → Option Str → Option Str → Except Unit AddResult))
    (now : Nat) : SlackState × AddReply :=
  if !matchAddDispatch msg.text then (s, .ignored)
  else if msg.botId.isSome then (s, .ignored)
  else if msg.threadTs.isNone then (s, .ignored)
  else
    match scanMagnet (viewAt s.searchResults now) msg.channel with
    | none => (s, .ignored)
    | some magnetData =>
        match matchAddExtract msg.text with
        | none => (s, .errorCaught)
        | some groups => (s, addDelegate magnetData groups torrentHandler)

/-! ## `/torrent` slash command (lines 106-261)

The name extraction (`extractTorrentName`, lines 1190-1203) needs
`decodeURIComponent`, which is modelled as strict percent-decoding of UTF-8
byte sequences: a malformed escape or an invalid byte sequence throws a
`URIError` in JavaScript, modelled by `none` (and caught by the source's
`try`/`catch`, which falls back to `'Unknown Torrent'`). -/

/-- The value of a hexadecimal digit. -/
def hexDigitVal (c : Char) : Option Nat :=
  if '0' ≤ c ∧ c ≤ '9' then some (c.toNat - '0'.toNat)
  else if 'a' ≤ c ∧ c ≤ 'f' then some (c.toNat - 'a'.toNat + 10)
  else if 'A' ≤ c ∧ c ≤ 'F' then some (c.toNat - 'A'.toNat + 10)
  else none

/-- Strict UTF-8 decoding of a byte list: rejects truncated sequences, bad
continuation bytes, overlong encodings, surrogate code points, and code
points above `U+10FFFF`, as `decodeURIComponent` does. -/
def utf8Decode : List Nat → Option (List Char)
  | [] => some []
  | b :: bs =>
      if b < 0x80 then
        (fun cs => Char.ofNat b :: cs) <$> utf8Decode bs
      else if 0xC2 ≤ b ∧ b ≤ 0xDF then
        match bs with
        | b1 :: bs2 =>
            if 0x80 ≤ b1 ∧ b1 < 0xC0 then
              (fun cs => Char.ofNat ((b - 0xC0) * 64 + (b1 - 0x80)) :: cs) <$> utf8Decode bs2
            else none
        | [] => none
      else if 0xE0 ≤ b ∧ b ≤ 0xEF then
        match bs with
        | b1 :: b2 :: bs2 =>
            let cp := (b - 0xE0) * 4096 + (b1 - 0x80) * 64 + (b2 - 0x80)
            if (0x80 ≤ b1 ∧ b1 < 0xC0) ∧ (0x80 ≤ b2 ∧ b2 < 0xC0)
                ∧ 0x800 ≤ cp ∧ ¬(0xD800 ≤ cp ∧ cp ≤ 0xDFFF) then
              (fun cs => Char.ofNat cp :: cs) <$> utf8Decode bs2
            else none
        | _ => none
      else if 0xF0 ≤ b ∧ b ≤ 0xF4 then
        match bs with
        | b1 :: b2 :: b3 :: bs2 =>
            let cp := (b - 0xF0) * 262144 + (b1 - 0x80) * 4096 + (b2 - 0x80) * 64 + (b3 - 0x80)
            if (0x80 ≤ b1 ∧ b1 < 0xC0) ∧ (0x80 ≤ b2 ∧ b2 < 0xC0) ∧ (0x80 ≤ b3 ∧ b3 < 0xC0)
                ∧ 0x10000 ≤ cp ∧ cp ≤ 0x10FFFF then
              (fun cs => Char.ofNat cp :: cs) <$> utf8Decode bs2
            else none
        | _ => none
      else none

/-- First pass of `decodeURIComponent`: turn every `%XX` escape into a byte,
keep other characters; a `%` not followed by two hexadecimal digits is a
`URIError`. -/
def pctScan : Str → Option (List (Sum Char Nat))
  | [] => some []
  | '%' :: a :: b :: rest =>
      match hexDigitVal a, hexDigitVal b with
      | some hi, some lo => (fun l => Sum.inr (hi * 16 + lo) :: l) <$> pctScan rest
      | _, _ => none
  | '%' :: _ => none
  | c :: rest => (fun l => Sum.inl c :: l) <$> pctScan rest

/-- Group maximal runs of consecutive escape bytes, which are decoded as one
UTF-8 sequence each. -/
def splitRuns : List (Sum Char Nat) → List (Sum Char (List Nat))
  | [] => []
  | Sum.inl c :: rest => Sum.inl c :: splitRuns rest
  | Sum.inr b :: rest =>
      match splitRuns rest with
      | Sum.inr bs :: rs => Sum.inr (b :: bs) :: rs
      | rs => Sum.inr [b] :: rs

/-- UTF-8-decode every byte run, keep literal characters. -/
def decodeRuns : List (Sum Char (List Nat)) → Option Str
  | [] => some []
  | Sum.inl c :: rest => (fun t => c :: t) <$> decodeRuns rest
  | Sum.inr bs :: rest =>
      match utf8Decode bs, decodeRuns rest with
      | some cs, some t => some (cs ++ t)
      | _, _ => none

/-- `decodeURIComponent(s)`; `none` models a thrown `URIError`. -/
def decodeURIComponentJs (s : Str) : Option Str :=
  match pctScan s with
  | none => none
  | some mixed => decodeRuns (splitRuns mixed)

/-- `magnetLink.match(/&dn=([^&]+)/)`: scan for the first position where
`&dn=` is followed by at least one non-`&` character, capturing the maximal
non-`&` run there (the regex scanner advances one position and retries when
the capture would be empty). -/
def matchDn : Str → Option Str
  | [] => none
  | c :: rest =>
      if jsStartsWith (c :: rest) ("&dn=".data) then
        let captured := ((c :: rest).drop 4).takeWhile (fun x => decide (x ≠ '&'))
        if captured.isEmpty then matchDn rest else some captured
      else matchDn rest

/-- The character class `[a-zA-Z0-9]`. -/
def isAlnumAscii (c : Char) : Bool :=
  ('a' ≤ c && c ≤ 'z') || ('A' ≤ c && c ≤ 'Z') || ('0' ≤ c && c ≤ '9')

/-- `magnetLink.match(/btih:([a-zA-Z0-9]+)/i)`: first case-insensitive
occurrence of `btih:` followed by at least one ASCII alphanumeric, capturing
the maximal alphanumeric run. -/
def matchBtih : Str → Option Str
  | [] => none
  | c :: rest =>
      if ciStartsWith (c :: rest) ("btih:".data) then
        let captured := ((c :: rest).drop 5).takeWhile isAlnumAscii
        if captured.isEmpty then matchBtih rest else some captured
      else matchBtih rest

/-- `extractTorrentName(magnetLink)` (lines 1190-1203): prefer the
percent-decoded `&dn=` display name with `+` replaced by spaces; a decoding
`URIError` is caught and yields `'Unknown Torrent'`; otherwise fall back to
the first 8 characters of the `btih:` hash, or `'Unknown Torrent'`. -/
def extractTorrentName (magnetLink : Str) : Str :=
  match matchDn magnetLink with
  | some raw =>
      match decodeURIComponentJs (raw.map (fun c => if c = '+' then ' ' else c)) with
      | some s => s
      | none => "Unknown Torrent".data
  | none =>
      match matchBtih magnetLink with
      | some h => "Torrent ".data ++ h.take 8
      | none => "Unknown Torrent".data

/-- `s.includes(sub)`. -/
def jsIncludes (s sub : Str) : Bool :=
  match s with
  | [] => sub.isEmpty
  | c :: rest => jsStartsWith (c :: rest) sub || jsIncludes rest sub

/-- `isValidMagnetLink(link)` (lines 1169-1176):
`link.trim().startsWith('magnet:?') && link.includes('xt=urn:btih:')`. -/
def isValidMagnetLink (link : Str) : Bool :=
  jsStartsWith (jsTrim link) ("magnet:?".data) && jsIncludes link ("xt=urn:btih:".data)

/-- The reply produced by the `/torrent` slash command, by content kind. -/
inductive TorrentReply where
  | invalidMagnet
  | invalidType
  | errorReply
  | success (infoHash : Str)
  deriving DecidableEq

/-- The `/torrent` slash command (lines 106-261): parse
`<magnet> [movie|tv] [destination]` from the command text, validate, call
the external add collaborator, and on success register the job: build the
metadata record (with the classification-derived default destination when no
explicit destination was given) and insert it into both
`this.torrentMetadata` and `this.trackedTorrents` (the latter with
`{progress: result.progress || 0, notified: false}`).  A missing or throwing
collaborator is caught by the command's `catch` (`errorReply`). -/
def slashTorrentCommand (s : SlackState) (text channelId userId userName : Str)
    (threadTs : Option Str) (initialMsgTs : Str) (nowIso : Str)
    (torrentHandler : Option (Str → Option Str → Option Str → Except Unit AddResult)) :
    SlackState × TorrentReply :=
  let parts := jsSplitWS (jsTrim text)
  let magnetLink := parts.headD []
  let torrentType := (parts.get? 1).map jsToLower
  let destination := List.intercalate [' '] (parts.drop 2)
  if !isValidMagnetLink magnetLink then (s, .invalidMagnet)
  else if (match torrentType with
           | some ty => !ty.isEmpty && !(decide (ty = ("movie".data)) || decide (ty = ("tv".data)))
           | none => false) then (s, .invalidType)
  else
    let torrentName := extractTorrentName magnetLink
    match torrentHandler with
    | none => (s, .errorReply)
    | some h =>
        match h magnetLink torrentType (some destination) with
        | Except.error _ => (s, .errorReply)
        | Except.ok result =>
            let metadata : TorrentMeta :=
              { infoHash := result.infoHash
                channel := channelId
                threadTs := threadTs.getD initialMsgTs
                messageTs := initialMsgTs
                type := jsOrStrD torrentType ("unknown".data)
                destination :=
                  if !destination.isEmpty then destination
                  else if torrentType = some ("movie".data) then "/app/downloads/movies".data
                  else if torrentType = some ("tv".data) then "/app/downloads/tv".data
                  else "/downloads".data
                name := jsOrStrD result.name torrentName
                addedBy := userId
                addedByName := userName
                addedAt := nowIso }
            ({ s with
                torrentMetadata := (mapSet s.torrentMetadata result.infoHash metadata),
                trackedTorrents := (mapSet s.trackedTorrents result.infoHash
                  { progress := result.progress.getD 0, notified := false,
                    metadata := metadata }) },
              .success result.infoHash)

/-! ## Helper lemmas -/

@[simp]
theorem mapGet_mapSet_self {α : Type} (m : List (Str × α)) (k : Str) (v : α) :
    mapGet (mapSet m k v) k = some v := by
  induction m with
  | nil => simp [mapGet, mapSet]
  | cons e rest ih =>
      by_cases h : e.1 = k
      · simp [mapGet, mapSet, h]
      · simp [mapGet, mapSet, h, ih]

theorem mapGet_mapSet_ne {α : Type} (m : List (Str × α)) (k k2 : Str) (v : α)
    (h : k2 ≠ k) : mapGet (mapSet m k v) k2 = mapGet m k2 := by
  have hk : k ≠ k2 := fun hh => h hh.symm
  induction m with
  | nil => simp [mapGet, mapSet, hk]
  | cons e rest ih =>
      by_cases he : e.1 = k
      · subst he
        simp [mapGet, mapSet, hk]
      · simp [mapGet, mapSet, he, ih]


theorem runJob_notified (vals : List Int) :
    ∀ t : Tracked, t.notified = true →
      (runJob t vals).1.notified = true ∧ (runJob t vals).2 = 0 := by
  induction vals with
  | nil => intro t ht; simp [runJob, ht]
  | cons v vs ih =>
      intro t ht
      have hstep : (stepJob t v).2 = false := by simp [stepJob, ht]
      have hkeep : (stepJob t v).1.notified = true := by simp [stepJob, ht]
      have := ih (stepJob t v).1 hkeep
      simp [runJob, hstep, this.1, this.2]

theorem runJob_count (vals : List Int) :
    ∀ t : Tracked, t.notified = false →
      ((runJob t vals).2 = if hasTransition t.progress vals then 1 else 0)
      ∧ ((runJob t vals).1.notified = hasTransition t.progress vals) := by
  induction vals with
  | nil => intro t ht; simp [runJob, hasTransition, ht]
  | cons v vs ih =>
      intro t ht
      cases hA : (decide (100 ≤ v) && decide (t.progress < 100)) with
      | true =>
          have hstep : (stepJob t v).2 = true := by simp [stepJob, ht, hA]
          have hkeep : (stepJob t v).1.notified = true := by simp [stepJob, ht, hA]
          have hrest := runJob_notified vs (stepJob t v).1 hkeep
          constructor
          · simp [runJob, hstep, hrest.2, hasTransition, hA]
          · simp [runJob, hrest.1, hasTransition, hA]
      | false =>
          have hstep : (stepJob t v).2 = false := by simp [stepJob, ht, hA]
          have hkeep : (stepJob t v).1.notified = false := by simp [stepJob, ht, hA]
          have hprog : (stepJob t v).1.progress = v := by simp [stepJob]
          have := ih (stepJob t v).1 hkeep
          constructor
          · simp [runJob, hstep, this.1, hprog, hasTransition, hA]
          · simp [runJob, this.2, hprog, hasTransition, hA]

theorem runUpdates_spec (vals : List Int) :
    ∀ (s : SlackState) (id : Str) (t : Tracked),
      s.isEnabled = true → mapGet s.trackedTorrents id = some t →
      (runUpdates s id vals).2 = (runJob t vals).2
      ∧ mapGet (runUpdates s id vals).1.trackedTorrents id = some (runJob t vals).1
      ∧ (runUpdates s id vals).1.isEnabled = true := by
  induction vals with
  | nil => intro s id t hen hget; simp [runUpdates, runJob, hen, hget]
  | cons v vs ih =>
      intro s id t hen hget
      have hup : updateTorrentProgress s id v =
          ({ s with trackedTorrents := mapSet s.trackedTorrents id (stepJob t v).1 },
            (stepJob t v).2) := by
        simp [updateTorrentProgress, hen, hget]
      have hget2 : mapGet (mapSet s.trackedTorrents id (stepJob t v).1) id
          = some (stepJob t v).1 := mapGet_mapSet_self _ _ _
      have := ih { s with trackedTorrents := mapSet s.trackedTorrents id (stepJob t v).1 }
        id (stepJob t v).1 hen hget2
      refine ⟨?_, ?_, ?_⟩
      · simp [runUpdates, runJob, hup, this.1]
      · simp [runUpdates, runJob, hup, this.2.1]
      · simp [runUpdates, hup, this.2.2]

/-! ## Cache lemmas -/

theorem getSessionAt_cons (e : Str × CacheEntry) (rest : List (Str × CacheEntry))
    (k : Str) (t : Nat) :
    getSessionAt (e :: rest) k t =
      if t < e.2.deadline then
        (if e.1 = k then some e.2.data else getSessionAt rest k t)
      else getSessionAt rest k t := by
  by_cases hd : t < e.2.deadline <;> by_cases he : e.1 = k <;>
    simp [getSessionAt, viewAt, mapGet, hd, he]

theorem getSessionAt_absent (c : List (Str × CacheEntry)) (k : Str) (t : Nat)
    (h : mapGet c k = none) : getSessionAt c k t = none := by
  induction c with
  | nil => simp [getSessionAt, viewAt, mapGet]
  | cons e rest ih =>
      have he : e.1 ≠ k := by
        intro hh
        simp [mapGet, hh] at h
      have hrest : mapGet rest k = none := by
        simpa [mapGet, he] using h
      rw [getSessionAt_cons]
      simp [he, ih hrest]

theorem getSessionAt_mapSet_fresh (c : List (Str × CacheEntry)) (k : Str)
    (e : CacheEntry) (t : Nat) (h : mapGet c k = none) :
    getSessionAt (mapSet c k e) k t = if t < e.deadline then some e.data else none := by
  induction c with
  | nil =>
      rw [mapSet, getSessionAt_cons]
      simp [getSessionAt, viewAt, mapGet]
  | cons f rest ih =>
      have hf : f.1 ≠ k := by
        intro hh
        simp [mapGet, hh] at h
      have hrest : mapGet rest k = none := by
        simpa [mapGet, hf] using h
      rw [mapSet]
      simp only [hf, if_false]
      rw [getSessionAt_cons]
      simp [hf, ih hrest]

theorem getSessionAt_mapSet_ne (c : List (Str × CacheEntry)) (k k2 : Str)
    (e : CacheEntry) (t : Nat) (h : k2 ≠ k) :
    getSessionAt (mapSet c k e) k2 t = getSessionAt c k2 t := by
  have hk : k ≠ k2 := fun hh => h hh.symm
  induction c with
  | nil =>
      rw [mapSet, getSessionAt_cons]
      simp [hk, getSessionAt, viewAt, mapGet]
  | cons f rest ih =>
      by_cases hf : f.1 = k
      · subst hf
        have hms : mapSet (f :: rest) f.1 e = (f.1, e) :: rest := by
          rw [mapSet]
          simp
        rw [hms, getSessionAt_cons, getSessionAt_cons]
        simp [hk]
      · rw [mapSet]
        simp only [hf, if_false]
        rw [getSessionAt_cons, getSessionAt_cons]
        simp [ih]

/-- A concrete metadata record used by the witnesses below. -/
def exMeta : TorrentMeta :=
  { infoHash := ("aaaa1111".data), channel := ("C1".data), threadTs := ("1.1".data),
    messageTs := ("1.1".data), type := ("movie".data),
    destination := ("/app/downloads/movies".data), name := ("A".data),
    addedBy := ("U1".data), addedByName := ("u".data), addedAt := ("t0".data) }

/-! ## Claim C1 -/

/-- **C1** — For every job id and every sequence of `updateTorrentProgress`
calls against it (starting from the state recorded at registration:
progress `p0`, `notified = false`), the completion notification fires at
most once, and it fires iff some call records a value `≥ 100` whose
immediately preceding recorded value (`p0` for the first call) was `< 100`
— `hasTransition p0 vals`; since notification is what sets `notified`, the
first such call is exactly the one at which `notified` is still false.  On
firing, the tracked entry's `notified` flag is true from that call on, as
the final state shows. -/
theorem c1_completion_notification_once
    (s : SlackState) (id : Str) (p0 : Int) (md : TorrentMeta) (vals : List Int)
    (hen : s.isEnabled = true)
    (hreg : mapGet s.trackedTorrents id =
      some { progress := p0, notified := false, metadata := md }) :
    (runUpdates s id vals).2 ≤ 1
    ∧ ((runUpdates s id vals).2 = 1 ↔ hasTransition p0 vals = true)
    ∧ ∃ t2, mapGet (runUpdates s id vals).1.trackedTorrents id = some t2
        ∧ t2.notified = hasTransition p0 vals := by
  have hspec := runUpdates_spec vals s id _ hen hreg
  have hcount := runJob_count vals { progress := p0, notified := false, metadata := md } rfl
  refine ⟨?_, ?_, ?_⟩
  · rw [hspec.1, hcount.1]
    cases hasTransition p0 vals <;> simp
  · rw [hspec.1, hcount.1]
    cases hasTransition p0 vals <;> simp
  · exact ⟨_, hspec.2.1, hcount.2⟩

/-- Witness for `c1_completion_notification_once`: a job registered at
progress 0 and fed the sequence `[50, 100]` is notified exactly once. -/
theorem c1_completion_notification_once_witness :
    (runUpdates
      { isEnabled := true,
        trackedTorrents := [(("aaaa1111".data),
          { progress := 0, notified := false, metadata := exMeta })],
        torrentMetadata := [], searchResults := [] }
      ("aaaa1111".data) [50, 100]).2 = 1 := by
  have h := c1_completion_notification_once
    { isEnabled := true,
      trackedTorrents := [(("aaaa1111".data),
        { progress := 0, notified := false, metadata := exMeta })],
      torrentMetadata := [], searchResults := [] }
    ("aaaa1111".data) 0 exMeta [50, 100] rfl (by decide)
  exact h.2.1.mpr (by decide)

/-! ## Claim C4 -/

/-- **C4** — For every id not present in the tracked-jobs registry
`this.trackedTorrents` and every progress value, `updateTorrentProgress` is
a no-op: it returns the state unchanged (registry, job entries and cache
untouched) and never fires a notification. -/
theorem c4_unknown_id_noop (s : SlackState) (id : Str) (p : Int)
    (h : mapGet s.trackedTorrents id = none) :
    updateTorrentProgress s id p = (s, false) := by
  unfold updateTorrentProgress
  cases he : s.isEnabled <;> simp [he, h]

/-- Witness for `c4_unknown_id_noop` on a concrete enabled state with an
empty registry. -/
theorem c4_unknown_id_noop_witness :
    updateTorrentProgress
      { isEnabled := true, trackedTorrents := [],
        torrentMetadata := [(("aaaa1111".data), exMeta)], searchResults := [] }
      ("bbbb".data) 100
    = ({ isEnabled := true, trackedTorrents := [],
         torrentMetadata := [(("aaaa1111".data), exMeta)], searchResults := [] }, false) :=
  c4_unknown_id_noop _ _ _ (by decide)

/-! ## Claim C6 -/

/-- **C6** — A session stored under a fresh key `k` at time `now` is
retrievable at `now + delta` exactly for `delta` strictly below its TTL and
not retrievable from the TTL on; the TTL is the deadline fixed at creation
(`searchCommand` stores `now + searchSessionTTLms` = 10 minutes,
`afterSelection` stores `now + magnetSessionTTLms` = 5 minutes) and no read
ever changes a deadline (lookups are pure functions of the cache).  Once the
deadline has passed, the whole cache is observationally identical to one in
which the session was never created (last two conjuncts).  The last two
conjuncts state this directly for the two creation sites `searchCommand` and
`afterSelection`. -/
theorem c6_session_ttl_expiry
    (s : SlackState) (k : Str) (d : SessionData) (now : Nat)
    (hfresh : mapGet s.searchResults k = none) :
    (∀ delta : Nat,
        getSessionAt (mapSet s.searchResults k
            { data := d, deadline := now + searchSessionTTLms }) k (now + delta)
          = if delta < searchSessionTTLms then some d else none)
    ∧ (∀ delta : Nat,
        getSessionAt (mapSet s.searchResults k
            { data := d, deadline := now + magnetSessionTTLms }) k (now + delta)
          = if delta < magnetSessionTTLms then some d else none)
    ∧ (∀ (dl t : Nat), dl ≤ t → ∀ k2 : Str,
        getSessionAt (mapSet s.searchResults k { data := d, deadline := dl }) k2 t
          = getSessionAt s.searchResults k2 t)
    ∧ (∀ (text ch u : Str) (rs : List SearchResult),
        (jsTrim text).isEmpty = false → rs.isEmpty = false →
        ∀ delta : Nat,
          getSessionAt (searchCommand s text ch u rs k now).1.searchResults k (now + delta)
            = if delta < searchSessionTTLms
              then some (searchSessionData rs (jsTrim text) ch u) else none)
    ∧ (∀ (msg : Message) (r : SearchResult) (l : Str),
        msg.ts = k → l.isEmpty = false →
        ∀ delta : Nat,
          getSessionAt (afterSelection s msg r (Except.ok (some l)) now).1.searchResults k (now + delta)
            = if delta < magnetSessionTTLms
              then some { results := none, query := none, magnetLink := some l,
                          torrentTitle := some r.title, channel := msg.channel,
                          userId := msg.user } else none) := by
  have hlt : ∀ (delta ttl : Nat), (now + delta < now + ttl) = (delta < ttl) := by
    intro delta ttl
    simp
  refine ⟨?_, ?_, ?_, ?_, ?_⟩
  · intro delta
    rw [getSessionAt_mapSet_fresh _ _ _ _ hfresh]
    simp [hlt]
  · intro delta
    rw [getSessionAt_mapSet_fresh _ _ _ _ hfresh]
    simp [hlt]
  · intro dl t hdl k2
    by_cases hk2 : k2 = k
    · subst hk2
      rw [getSessionAt_mapSet_fresh _ _ _ _ hfresh, getSessionAt_absent _ _ _ hfresh]
      simp [Nat.not_lt_of_le hdl]
    · exact getSessionAt_mapSet_ne _ _ _ _ _ hk2
  · intro text ch u rs htext hrs delta
    rw [searchCommand]
    simp only [htext, hrs, Bool.false_eq_true, if_false]
    rw [getSessionAt_mapSet_fresh _ _ _ _ hfresh]
    simp [hlt]
  · intro msg r l hts hl delta
    rw [afterSelection]
    simp only [hl, Bool.false_eq_true, if_false]
    subst hts
    rw [getSessionAt_mapSet_fresh _ _ _ _ hfresh]
    simp [hlt]

/-- Witness for `c6_session_ttl_expiry`: on an empty cache, a search session
created at time 0 is retrievable at 0 and not retrievable at its 10-minute
TTL. -/
theorem c6_session_ttl_expiry_witness :
    getSessionAt (mapSet [] ("55.1".data)
        { data := searchSessionData [] ("q".data) ("C1".data) ("U1".data),
          deadline := 0 + searchSessionTTLms }) ("55.1".data) (0 + 0)
      = some (searchSessionData [] ("q".data) ("C1".data) ("U1".data))
    ∧ getSessionAt (mapSet [] ("55.1".data)
        { data := searchSessionData [] ("q".data) ("C1".data) ("U1".data),
          deadline := 0 + searchSessionTTLms }) ("55.1".data) (0 + searchSessionTTLms)
      = none := by
  have h := c6_session_ttl_expiry
    { isEnabled := true, trackedTorrents := [], torrentMetadata := [], searchResults := [] }
    ("55.1".data) (searchSessionData [] ("q".data) ("C1".data) ("U1".data)) 0 rfl
  constructor
  · have h0 := h.1 0
    rw [if_pos (by norm_num [searchSessionTTLms])] at h0
    exact h0
  · have h1 := h.1 searchSessionTTLms
    rw [if_neg (by norm_num)] at h1
    exact h1

/-! ## Claim C3 -/

/-- **C3** — Prefix resolution (the loop shared by `/torrent-location` and
`/torrent-move`) is a case-insensitive leading-substring match, scanned over
the registered ids in registry insertion order, returning the first match:
(1) it equals `find?` of the match predicate over the entry list; (2) when
two ids both match the prefix, the one registered first wins; (3) the empty
prefix on a non-empty registry resolves to the first-inserted id; (4) the
empty registry resolves to `NotFound` (`none`); (5) a prefix matching no id
resolves to `NotFound`. -/
theorem c3_prefix_resolution
    (entries rest : List (Str × TorrentMeta)) (hash k1 k2 : Str)
    (m m1 m2 : TorrentMeta) :
    (resolvePrefix entries hash
      = (entries.find? (fun e => hashMatches e.1 hash)).map Prod.fst)
    ∧ (hashMatches k1 hash = true → hashMatches k2 hash = true →
        resolvePrefix ((k1, m1) :: (k2, m2) :: rest) hash = some k1)
    ∧ resolvePrefix ((k1, m) :: rest) [] = some k1
    ∧ resolvePrefix [] hash = none
    ∧ ((∀ e ∈ entries, hashMatches e.1 hash = false) →
        resolvePrefix entries hash = none) := by
  refine ⟨?_, ?_, ?_, ?_, ?_⟩
  · induction entries with
    | nil => simp [resolvePrefix]
    | cons e es ih =>
        obtain ⟨ka, ma⟩ := e
        by_cases h : hashMatches ka hash
        · simp [resolvePrefix, List.find?, h]
        · simp only [resolvePrefix, h, if_false]
          rw [ih]
          simp [List.find?, h]
  · intro h1 _
    simp [resolvePrefix, h1]
  · have h1 : hashMatches k1 [] = true := by
      simp [hashMatches, jsStartsWith, jsToLower, List.isPrefixOf]
    simp [resolvePrefix, h1]
  · rfl
  · induction entries with
    | nil => intro _; rfl
    | cons e es ih =>
        intro hall
        have he : hashMatches e.1 hash = false := hall e (List.mem_cons_self e es)
        have hrest := ih (fun x hx => hall x (List.mem_cons_of_mem _ hx))
        obtain ⟨ka, ma⟩ := e
        simpa [resolvePrefix, he] using hrest

/-- Witness for `c3_prefix_resolution`: with `aaaa1111` registered before
`aaaa2222`, the (case-insensitively matching) prefix `AAAA` resolves to
`aaaa1111`. -/
theorem c3_prefix_resolution_witness :
    resolvePrefix [(("aaaa1111".data), exMeta), (("aaaa2222".data), exMeta)]
      ("AAAA".data) = some ("aaaa1111".data) := by
  have h := c3_prefix_resolution [] [] ("AAAA".data) ("aaaa1111".data)
    ("aaaa2222".data) exMeta exMeta exMeta
  exact h.2.1 (by decide) (by decide)

/-! ## Claim C5 -/

/-- **C5** — For every `/torrent-move` invocation whose (non-empty) prefix
resolves to a registered job and whose destination is non-empty, the handler
overwrites the job's metadata destination unconditionally — the resulting
state does not depend on the mover collaborator's outcome at all, so no
reported status or thrown error ever reverts it — and the collaborator's
outcome (reported status `complete`/`partial`/`scheduled`, an absent or
unrecognised status, a thrown error, or no configured mover) determines only
the reply content, via `moveReplyOf`; in particular an unconfigured mover
(and likewise a throwing one) still updates the destination and reports the
metadata-only outcome. -/
theorem c5_move_updates_destination_optimistically
    (s : SlackState) (text : Str) (matched : Str) (md : TorrentMeta)
    (mover mover2 : Option (Except Unit (Option MoveResult)))
    (hhash : ((jsSplitWS (jsTrim text)).headD []).isEmpty = false)
    (hdest : (List.intercalate [' '] ((jsSplitWS (jsTrim text)).drop 1)).isEmpty = false)
    (hres : resolvePrefix s.torrentMetadata ((jsSplitWS (jsTrim text)).headD [])
      = some matched)
    (hmd : mapGet s.torrentMetadata matched = some md) :
    mapGet (torrentMoveCommand s text mover).1.torrentMetadata matched
      = some { md with destination := List.intercalate [' '] ((jsSplitWS (jsTrim text)).drop 1) }
    ∧ (torrentMoveCommand s text mover).1 = (torrentMoveCommand s text mover2).1
    ∧ (torrentMoveCommand s text mover).2 = moveReplyOf (match mover with
        | none => none
        | some (Except.error _) => none
        | some (Except.ok r) => r)
    ∧ (mover = none → (torrentMoveCommand s text mover).2 = MoveReply.metadataOnly)
    ∧ (mover = some (Except.error ()) →
        (torrentMoveCommand s text mover).2 = MoveReply.metadataOnly) := by
  have hcmd : ∀ mv : Option (Except Unit (Option MoveResult)),
      torrentMoveCommand s text mv =
      ({ s with
          torrentMetadata := (mapSet s.torrentMetadata matched
            { md with destination := List.intercalate [' '] ((jsSplitWS (jsTrim text)).drop 1) }),
          trackedTorrents := (setTrackedMeta s.trackedTorrents matched
            { md with destination := List.intercalate [' '] ((jsSplitWS (jsTrim text)).drop 1) }) },
        moveReplyOf (match mv with
          | none => none
          | some (Except.error _) => none
          | some (Except.ok r) => r)) := by
    intro mv
    rw [torrentMoveCommand.eq_def]
    simp only [hhash, hdest, Bool.or_self, Bool.false_eq_true, if_false, hres, hmd]
  refine ⟨?_, ?_, ?_, ?_, ?_⟩
  · rw [hcmd mover]
    simp
  · rw [hcmd mover, hcmd mover2]
  · rw [hcmd mover]
  · intro h
    subst h
    rw [hcmd none]
    rfl
  · intro h
    subst h
    rw [hcmd (some (Except.error ()))]
    rfl

/-- Witness for `c5_move_updates_destination_optimistically`:
`/torrent-move aa /new/path` with no mover configured still rewrites the
registry destination and reports the metadata-only outcome. -/
theorem c5_move_updates_destination_optimistically_witness :
    mapGet (torrentMoveCommand
        { isEnabled := true, trackedTorrents := [],
          torrentMetadata := [(("aaaa1111".data), exMeta)], searchResults := [] }
        ("aa /new/path".data) none).1.torrentMetadata ("aaaa1111".data)
      = some { exMeta with destination := (List.intercalate [' '] ((jsSplitWS (jsTrim ("aa /new/path".data))).drop 1)) }
    ∧ (torrentMoveCommand
        { isEnabled := true, trackedTorrents := [],
          torrentMetadata := [(("aaaa1111".data), exMeta)], searchResults := [] }
        ("aa /new/path".data) none).2 = MoveReply.metadataOnly := by
  have h := c5_move_updates_destination_optimistically
    { isEnabled := true, trackedTorrents := [],
      torrentMetadata := [(("aaaa1111".data), exMeta)], searchResults := [] }
    ("aa /new/path".data) ("aaaa1111".data) exMeta none none
    (by decide) (by decide) (by decide) (by decide)
  exact ⟨h.1, h.2.2.2.1 rfl⟩

/-- A concrete magnet-session value used by witnesses below. -/
def exMagnetSession : SessionData :=
  { results := none, query := none,
    magnetLink := some ("magnet:?xt=urn:btih:aaaa1111".data),
    torrentTitle := some ("The Dark Knight".data),
    channel := ("C1".data), userId := ("U1".data) }

/-! ## Claim C7 -/

/-- **C7** — The free-text "add" listener never mutates the handler state at
all — in particular a successfully used magnet session is not consumed or
removed from `this.searchResults` (there is no `delete` in the listener), so
it stays until its scheduled expiry fires; consequently, whenever the
channel scan finds a session, it finds the same session again after the
listener has run, whatever the collaborator outcome — a single magnet
session can serve several "add" replies before expiry. -/
theorem c7_magnet_session_not_consumed
    (s : SlackState) (msg : Message) (now : Nat) (d : SessionData)
    (h : scanMagnet (viewAt s.searchResults now) msg.channel = some d) :
    (∀ th : Option (Str → Option Str → Option Str → Except Unit AddResult),
        (addReplyHandler s msg th now).1 = s)
    ∧ (∀ th : Option (Str → Option Str → Option Str → Except Unit AddResult),
        scanMagnet (viewAt (addReplyHandler s msg th now).1.searchResults now)
          msg.channel = some d) := by
  have hstate : ∀ th : Option (Str → Option Str → Option Str → Except Unit AddResult),
      (addReplyHandler s msg th now).1 = s := by
    intro th
    rw [addReplyHandler.eq_def]
    repeat' split
    all_goals rfl
  refine ⟨hstate, ?_⟩
  intro th
  rw [hstate th]
  exact h

/-- Witness for `c7_magnet_session_not_consumed` at a concrete state holding
one live magnet session, with a configured and succeeding collaborator. -/
theorem c7_magnet_session_not_consumed_witness :
    (addReplyHandler
      { isEnabled := true, trackedTorrents := [], torrentMetadata := [],
        searchResults := [(("100.1".data), { data := exMagnetSession, deadline := 10 })] }
      { text := ("add movie".data), ts := ("101.1".data), threadTs := some ("100.1".data),
        channel := ("C1".data), botId := none, user := ("U1".data) }
      (some (fun _ _ _ => Except.ok
        { infoHash := ("aaaa1111".data), name := none, progress := some 0 }))
      0).1
    = { isEnabled := true, trackedTorrents := [], torrentMetadata := [],
        searchResults := [(("100.1".data), { data := exMagnetSession, deadline := 10 })] } := by
  have h := c7_magnet_session_not_consumed
    { isEnabled := true, trackedTorrents := [], torrentMetadata := [],
      searchResults := [(("100.1".data), { data := exMagnetSession, deadline := 10 })] }
    { text := ("add movie".data), ts := ("101.1".data), threadTs := some ("100.1".data),
      channel := ("C1".data), botId := none, user := ("U1".data) }
    0 exMagnetSession (by decide)
  exact h.1 (some (fun _ _ _ => Except.ok
    { infoHash := ("aaaa1111".data), name := none, progress := some 0 }))

/-! ## Claim C10 -/

/-- **C10** — Only cache entries holding a (truthy) resolved magnet link can
be matched by the "add" scan: a matched session always carries a non-empty
`magnetLink` (1), a cache whose entries all lack the field — in particular
one holding only search sessions — never matches (2), and search sessions
are stored without the field (3), the two session shapes being told apart by
that field alone.  An "add" message that is not a thread reply is ignored
with no state change, whatever the cache holds (4). -/
theorem c10_add_scan_requires_magnet_link
    (entries : List (Str × SessionData)) (channel : Str) (d : SessionData)
    (s : SlackState) (msg : Message) (now : Nat)
    (rs : List SearchResult) (q ch u : Str) :
    (scanMagnet entries channel = some d → ∃ l, d.magnetLink = some l ∧ l ≠ [])
    ∧ ((∀ e ∈ entries, e.2.magnetLink = none) → scanMagnet entries channel = none)
    ∧ (searchSessionData rs q ch u).magnetLink = none
    ∧ (msg.threadTs = none →
        ∀ th : Option (Str → Option Str → Option Str → Except Unit AddResult),
          addReplyHandler s msg th now = (s, AddReply.ignored)) := by
  refine ⟨?_, ?_, rfl, ?_⟩
  · induction entries with
    | nil => intro h; simp [scanMagnet] at h
    | cons e es ih =>
        obtain ⟨ts, data⟩ := e
        intro h
        simp only [scanMagnet] at h
        by_cases hg : (truthyOptStr data.magnetLink && decide (data.channel = channel)) = true
        · rw [if_pos hg] at h
          injection h with h
          subst h
          have hg1 : truthyOptStr data.magnetLink = true := by
            have := hg
            simp only [Bool.and_eq_true] at this
            exact this.1
          cases hml : data.magnetLink with
          | none =>
              rw [hml] at hg1
              simp [truthyOptStr] at hg1
          | some l =>
              refine ⟨l, rfl, ?_⟩
              rw [hml] at hg1
              simp only [truthyOptStr, Bool.not_eq_true'] at hg1
              intro hl
              subst hl
              simp at hg1
        · rw [if_neg hg] at h
          exact ih h
  · induction entries with
    | nil => intro _; rfl
    | cons e es ih =>
        intro hall
        have he : e.2.magnetLink = none := hall e (List.mem_cons_self e es)
        have hrest := ih (fun x hx => hall x (List.mem_cons_of_mem _ hx))
        obtain ⟨ts, data⟩ := e
        have he2 : data.magnetLink = none := he
        simp only [scanMagnet]
        rw [if_neg]
        · exact hrest
        · simp [truthyOptStr, he2]
  · intro hth th
    rw [addReplyHandler.eq_def]
    by_cases h1 : matchAddDispatch msg.text
    · by_cases h2 : msg.botId.isSome
      · simp [h1, h2]
      · simp [h1, h2, hth]
    · simp [h1]

/-- Witness for `c10_add_scan_requires_magnet_link`: the concrete magnet
session is matched and indeed carries a non-empty link; a cache holding only
a search session matches nothing; and a non-threaded "add" is a no-op. -/
theorem c10_add_scan_requires_magnet_link_witness :
    (∃ l, exMagnetSession.magnetLink = some l ∧ l ≠ [])
    ∧ scanMagnet [(("55.1".data),
        searchSessionData [] ("q".data) ("C1".data) ("U1".data))] ("C1".data) = none
    ∧ addReplyHandler
        { isEnabled := true, trackedTorrents := [], torrentMetadata := [],
          searchResults := [(("100.1".data), { data := exMagnetSession, deadline := 10 })] }
        { text := ("add".data), ts := ("101.1".data), threadTs := none,
          channel := ("C1".data), botId := none, user := ("U1".data) }
        none 0
      = ({ isEnabled := true, trackedTorrents := [], torrentMetadata := [],
           searchResults := [(("100.1".data), { data := exMagnetSession, deadline := 10 })] },
         AddReply.ignored) := by
  have h1 := (c10_add_scan_requires_magnet_link
    [(("100.1".data), exMagnetSession)] ("C1".data) exMagnetSession
    { isEnabled := true, trackedTorrents := [], torrentMetadata := [], searchResults := [] }
    { text := ("add".data), ts := ("101.1".data), threadTs := none,
      channel := ("C1".data), botId := none, user := ("U1".data) }
    0 [] ("q".data) ("C1".data) ("U1".data)).1 (by decide)
  have h2 := (c10_add_scan_requires_magnet_link
    [(("55.1".data), searchSessionData [] ("q".data) ("C1".data) ("U1".data))]
    ("C1".data) exMagnetSession
    { isEnabled := true, trackedTorrents := [], torrentMetadata := [], searchResults := [] }
    { text := ("add".data), ts := ("101.1".data), threadTs := none,
      channel := ("C1".data), botId := none, user := ("U1".data) }
    0 [] ("q".data) ("C1".data) ("U1".data)).2.1 (by decide)
  have h3 := (c10_add_scan_requires_magnet_link
    [] ("C1".data) exMagnetSession
    { isEnabled := true, trackedTorrents := [], torrentMetadata := [],
      searchResults := [(("100.1".data), { data := exMagnetSession, deadline := 10 })] }
    { text := ("add".data), ts := ("101.1".data), threadTs := none,
      channel := ("C1".data), botId := none, user := ("U1".data) }
    0 [] ("q".data) ("C1".data) ("U1".data)).2.2.2 rfl none
  exact ⟨h1, h2, h3⟩

/-! ## Claim C9 -/

theorem monitorGo_eq_runPairs (ts : List (Str × Option ℚ)) :
    ∀ s : SlackState, monitorGo s ts
      = runPairs s (ts.map (fun t => (t.1, jsRound (t.2.getD 0 * 100)))) := by
  induction ts with
  | nil => intro s; rfl
  | cons t ts ih =>
      intro s
      simp only [monitorGo, runPairs, List.map_cons]
      rw [ih]

/-- **C9** — `monitorProgress` converts each torrent's fractional progress
(absent treated as `0`) to an integer percentage by scaling by 100 and
rounding to the nearest integer (`Math.round`, ties up), and feeds the
results through `updateTorrentProgress` id by id in list order (first
conjunct: the run equals folding `updateTorrentProgress` over the converted
list).  The rounding really is nearest-integer (third conjunct, error at
most 1/2) and maps `[0, 1]` into `0..100` (second conjunct); an absent
progress value yields `0` (fourth conjunct). -/
theorem c9_monitor_rounds_and_feeds
    (s : SlackState) (torrents : List (Str × Option ℚ))
    (hen : s.isEnabled = true) :
    monitorProgress s torrents
      = runPairs s (torrents.map (fun t => (t.1, jsRound (t.2.getD 0 * 100))))
    ∧ (∀ q : ℚ, 0 ≤ q → q ≤ 1 → 0 ≤ jsRound (q * 100) ∧ jsRound (q * 100) ≤ 100)
    ∧ (∀ q : ℚ, |(jsRound q : ℚ) - q| ≤ 1 / 2)
    ∧ jsRound ((none : Option ℚ).getD 0 * 100) = 0 := by
  refine ⟨?_, ?_, ?_, ?_⟩
  · rw [monitorProgress]
    simp only [hen, Bool.not_true, Bool.false_eq_true, if_false]
    exact monitorGo_eq_runPairs torrents s
  · intro q h0 h1
    constructor
    · apply Int.floor_nonneg.mpr
      nlinarith
    · calc jsRound (q * 100) ≤ ⌊(100 : ℚ) + 1 / 2⌋ := by
            apply Int.floor_le_floor
            nlinarith
        _ = 100 := by
            apply Int.floor_eq_iff.mpr
            constructor <;> norm_num
  · intro q
    rw [abs_le]
    have hle := Int.floor_le (q + 1 / 2)
    have hlt := Int.lt_floor_add_one (q + 1 / 2)
    constructor
    · simp only [jsRound]
      linarith
    · simp only [jsRound]
      linarith
  · show ⌊(0 : ℚ) * 100 + 1 / 2⌋ = 0
    apply Int.floor_eq_iff.mpr
    constructor <;> norm_num

/-- Witness for `c9_monitor_rounds_and_feeds` on a concrete enabled state and
a single half-done torrent. -/
theorem c9_monitor_rounds_and_feeds_witness :
    monitorProgress
      { isEnabled := true,
        trackedTorrents := [(("aaaa1111".data),
          { progress := 0, notified := false, metadata := exMeta })],
        torrentMetadata := [], searchResults := [] }
      [(("aaaa1111".data), some (1 / 2 : ℚ))]
    = runPairs
      { isEnabled := true,
        trackedTorrents := [(("aaaa1111".data),
          { progress := 0, notified := false, metadata := exMeta })],
        torrentMetadata := [], searchResults := [] }
      ([(("aaaa1111".data), some (1 / 2 : ℚ))].map
        (fun t => (t.1, jsRound (t.2.getD 0 * 100)))) :=
  (c9_monitor_rounds_and_feeds _ _ rfl).1

/-! ## Claim C8 -/

theorem isWS_eq_false_of_digit (c : Char) (hl : '0' ≤ c) (hu : c ≤ '9') :
    isWS c = false := by
  cases hws : isWS c with
  | false => rfl
  | true =>
      exfalso
      simp only [isWS, Bool.or_eq_true, decide_eq_true_eq] at hws
      rcases hws with (((((h | h) | h) | h) | h) | h) <;> subst h <;>
        exact absurd hl (by decide)

theorem numericSelection_facts (t : Str) (h : matchesNumericSelection t = true) :
    jsTrim t = t ∧ 1 ≤ parseDigits t ∧ parseDigits t ≤ 99 := by
  match t, h with
  | [c], h =>
      simp only [matchesNumericSelection, Bool.and_eq_true, decide_eq_true_eq] at h
      obtain ⟨h1, h9⟩ := h
      have h0 : ('0' : Char) ≤ c := le_trans (by decide) h1
      have hws := isWS_eq_false_of_digit c h0 h9
      have hdig : isDigitChar c = true := by
        simp [isDigitChar, h0, h9]
      have h49 : 49 ≤ c.toNat := Char.le_def.mp h1
      have h57 : c.toNat ≤ 57 := Char.le_def.mp h9
      have h48 : ('0' : Char).toNat = 48 := rfl
      refine ⟨by simp [jsTrim, hws], ?_, ?_⟩
      · simp only [parseDigits, List.takeWhile, hdig, List.foldl, digitVal, h48]
        omega
      · simp only [parseDigits, List.takeWhile, hdig, List.foldl, digitVal, h48]
        omega
  | [c, d], h =>
      simp only [matchesNumericSelection, isDigitChar, Bool.and_eq_true,
        decide_eq_true_eq] at h
      obtain ⟨⟨h1, h9⟩, hd0, hd9⟩ := h
      have h0 : ('0' : Char) ≤ c := le_trans (by decide) h1
      have hwsc := isWS_eq_false_of_digit c h0 h9
      have hwsd := isWS_eq_false_of_digit d hd0 hd9
      have hdigc : isDigitChar c = true := by
        simp [isDigitChar, h0, h9]
      have hdigd : isDigitChar d = true := by
        simp [isDigitChar, hd0, hd9]
      have h49 : 49 ≤ c.toNat := Char.le_def.mp h1
      have h57 : c.toNat ≤ 57 := Char.le_def.mp h9
      have hd48 : 48 ≤ d.toNat := Char.le_def.mp hd0
      have hd57 : d.toNat ≤ 57 := Char.le_def.mp hd9
      have h48 : ('0' : Char).toNat = 48 := rfl
      refine ⟨by simp [jsTrim, hwsc, hwsd], ?_, ?_⟩
      · simp only [parseDigits, List.takeWhile, hdigc, hdigd, List.foldl, digitVal, h48]
        omega
      · simp only [parseDigits, List.takeWhile, hdigc, hdigd, List.foldl, digitVal, h48]
        omega

/-- **C8** — A reply consisting solely of digits (value 1-99, per the
dispatch pattern) in a thread whose root has a live search session selects
the stored result at that 1-based ordinal: when the number is at most the
number of stored results, the handler continues with exactly the
`(n-1)`-indexed stored result (second conjunct); when it exceeds the stored
count, the handler reports an invalid selection and does nothing else — the
state is returned unchanged and the magnet collaborator's outcome is
irrelevant, i.e. no link resolution and no magnet session (first
conjunct). -/
theorem c8_numeric_ordinal_selection
    (s : SlackState) (msg : Message) (th : Str) (sd : SessionData)
    (rs : List SearchResult) (now : Nat)
    (hmatch : matchesNumericSelection msg.text = true)
    (hbot : msg.botId = none)
    (hth : msg.threadTs = some th)
    (hsess : getSessionAt s.searchResults th now = some sd)
    (hrs : sd.results = some rs) :
    (rs.length < parseDigits msg.text →
      ∀ mg : SearchResult → Except Unit (Option Str),
        numericReplyHandler s msg mg now = (s, NumericReply.invalidSelection rs.length))
    ∧ (parseDigits msg.text ≤ rs.length →
      ∃ r, rs.get? (parseDigits msg.text - 1) = some r ∧
        ∀ mg : SearchResult → Except Unit (Option Str),
          numericReplyHandler s msg mg now = afterSelection s msg r (mg r) now) := by
  obtain ⟨htrim, hn1, hn99⟩ := numericSelection_facts msg.text hmatch
  have hunfold : ∀ mg : SearchResult → Except Unit (Option Str),
      numericReplyHandler s msg mg now =
      (if ((parseDigits msg.text : Int) - 1) < 0
          ∨ (rs.length : Int) ≤ (parseDigits msg.text : Int) - 1 then
        (s, NumericReply.invalidSelection rs.length)
      else
        match rs.get? ((parseDigits msg.text : Int) - 1).toNat with
        | none => (s, NumericReply.errorCaught)
        | some r => afterSelection s msg r (mg r) now) := by
    intro mg
    rw [numericReplyHandler.eq_def]
    simp only [hmatch, Bool.not_true, Bool.false_eq_true, if_false, hbot,
      Option.isSome_none, hth, hsess, hrs, htrim]
  constructor
  · intro hlen mg
    rw [hunfold mg, if_pos]
    right
    omega
  · intro hlen
    have hlt : parseDigits msg.text - 1 < rs.length := by omega
    have hne : rs.get? (parseDigits msg.text - 1) ≠ none := by
      intro hnone
      rw [List.get?_eq_none] at hnone
      omega
    obtain ⟨r, hr⟩ := Option.ne_none_iff_exists'.mp hne
    refine ⟨r, hr, ?_⟩
    intro mg
    rw [hunfold mg, if_neg]
    · have htn : ((parseDigits msg.text : Int) - 1).toNat = parseDigits msg.text - 1 := by
        omega
      rw [htn, hr]
    · omega

/-- Concrete search results for the C8 witness. -/
def c8Results : List SearchResult :=
  [ { title := ("R1".data), size := none, seeds := none, peers := none, provider := none },
    { title := ("R2".data), size := none, seeds := none, peers := none, provider := none },
    { title := ("R3".data), size := none, seeds := none, peers := none, provider := none } ]

/-- A concrete state holding one live search session for the C8 witness. -/
def c8State : SlackState :=
  { isEnabled := true, trackedTorrents := [], torrentMetadata := [],
    searchResults := [(("55.1".data),
      { data := searchSessionData c8Results ("q".data) ("C1".data) ("U1".data),
        deadline := 10 })] }

/-- Witness for `c8_numeric_ordinal_selection`: with three stored results,
the reply `2` selects the second result, and the reply `9` reports an
invalid selection and changes nothing. -/
theorem c8_numeric_ordinal_selection_witness :
    numericReplyHandler c8State
      { text := ("2".data), ts := ("90.1".data), threadTs := some ("55.1".data),
        channel := ("C1".data), botId := none, user := ("U1".data) }
      (fun _ => Except.ok (some ("magnet:?xt=urn:btih:bb".data))) 0
      = afterSelection c8State
          { text := ("2".data), ts := ("90.1".data), threadTs := some ("55.1".data),
            channel := ("C1".data), botId := none, user := ("U1".data) }
          { title := ("R2".data), size := none, seeds := none, peers := none,
            provider := none }
          (Except.ok (some ("magnet:?xt=urn:btih:bb".data))) 0
    ∧ numericReplyHandler c8State
        { text := ("9".data), ts := ("91.1".data), threadTs := some ("55.1".data),
          channel := ("C1".data), botId := none, user := ("U1".data) }
        (fun _ => Except.ok (some ("magnet:?xt=urn:btih:bb".data))) 0
      = (c8State, NumericReply.invalidSelection 3) := by
  have h2 := c8_numeric_ordinal_selection c8State
    { text := ("2".data), ts := ("90.1".data), threadTs := some ("55.1".data),
      channel := ("C1".data), botId := none, user := ("U1".data) }
    ("55.1".data) (searchSessionData c8Results ("q".data) ("C1".data) ("U1".data))
    c8Results 0 (by decide) rfl rfl (by decide) rfl
  have h9 := c8_numeric_ordinal_selection c8State
    { text := ("9".data), ts := ("91.1".data), threadTs := some ("55.1".data),
      channel := ("C1".data), botId := none, user := ("U1".data) }
    ("55.1".data) (searchSessionData c8Results ("q".data) ("C1".data) ("U1".data))
    c8Results 0 (by decide) rfl rfl (by decide) rfl
  constructor
  · obtain ⟨r, hr, hall⟩ := h2.2 (by decide)
    have hr2 : c8Results.get? (parseDigits ("2".data) - 1)
        = some { title := ("R2".data), size := none, seeds := none, peers := none,
                 provider := none } := by decide
    have hreq := Option.some.inj (hr.symm.trans hr2)
    rw [← hreq]
    exact hall (fun _ => Except.ok (some ("magnet:?xt=urn:btih:bb".data)))
  · exact h9.1 (by decide) (fun _ => Except.ok (some ("magnet:?xt=urn:btih:bb".data)))

/-! ## Claim C2 -/

/-- The failing input for claim C2: a live magnet session for channel `C1`
and a threaded reply `add movie`, with a configured add collaborator that
succeeds and returns info-hash `abc123`. -/
def c2State : SlackState :=
  { isEnabled := true, trackedTorrents := [], torrentMetadata := [],
    searchResults := [(("100.1".data), { data := exMagnetSession, deadline := 10 })] }

/-- The C2 message: `add movie` as a thread reply. -/
def c2Msg : Message :=
  { text := ("add movie".data), ts := ("101.1".data), threadTs := some ("100.1".data),
    channel := ("C1".data), botId := none, user := ("U1".data) }

/-- The C2 add collaborator: succeeds, returning info-hash `abc123`. -/
def c2Handler : Option (Str → Option Str → Option Str → Except Unit AddResult) :=
  some (fun _ _ _ => Except.ok
    { infoHash := ("abc123".data), name := some ("The Dark Knight".data),
      progress := some 0 })

/-- **C2** (bug demonstration) — On the failing input (live magnet session,
threaded `add movie` reply, successful delegation to the external add
collaborator), the free-text add listener replies with the success message
(the one that says "You'll be notified when it completes!") but registers
nothing: the state is returned entirely unchanged, the returned info-hash is
not in the tracked-jobs registry, and a subsequent 100%-progress report for
it is a silent no-op — no completion notification can ever fire.  The
`/torrent` slash command invoked with the *same* collaborator does register
the job, with the classification-derived default destination
`/app/downloads/movies` (last two conjuncts), which is what the claim (and
the listener's own reply text) promises for the add path. -/
theorem c2_add_reply_skips_registration :
    (addReplyHandler c2State c2Msg c2Handler 0).2
        = AddReply.added ("The Dark Knight".data)
    ∧ (addReplyHandler c2State c2Msg c2Handler 0).1 = c2State
    ∧ mapGet (addReplyHandler c2State c2Msg c2Handler 0).1.trackedTorrents
        ("abc123".data) = none
    ∧ updateTorrentProgress (addReplyHandler c2State c2Msg c2Handler 0).1
        ("abc123".data) 100
        = ((addReplyHandler c2State c2Msg c2Handler 0).1, false)
    ∧ (mapGet (slashTorrentCommand c2State
          ("magnet:?xt=urn:btih:aaaa1111 movie".data) ("C1".data) ("U1".data)
          ("u1".data) none ("200.1".data) ("t0".data) c2Handler).1.trackedTorrents
          ("abc123".data)).isSome = true
    ∧ (mapGet (slashTorrentCommand c2State
          ("magnet:?xt=urn:btih:aaaa1111 movie".data) ("C1".data) ("U1".data)
          ("u1".data) none ("200.1".data) ("t0".data) c2Handler).1.torrentMetadata
          ("abc123".data)).map TorrentMeta.destination
        = some ("/app/downloads/movies".data) := by
  refine ⟨?_, ?_, ?_, ?_, ?_, ?_⟩ <;> decide
